import Mathlib

/-!
Shallow embedding of the community-directory and API-surface logic of
SQLMatches (src/SQLMatches/community/__init__.py, src/SQLMatches/routes/api/misc.py).

Database tables are modelled as lists of rows; SQL queries become list
filters/joins; `fetch_one`/`fetch_val` become `List.head?`; randomly
generated tokens (`token_urlsafe`) and timestamps (`datetime.now`) are
passed in as explicit parameters; exceptions become `Except` values.
-/

namespace SQLMatches

/-- Row of the `community` table. -/
structure CommunityRow where
  community_name : String
  owner_id : String
  disabled : Bool
  demos : Bool
  timestamp : Nat
deriving DecidableEq

/-- Row of the `api_key` table. -/
structure ApiKeyRow where
  api_key : String
  owner_id : String
  community_name : String
  master : Bool
  timestamp : Nat
deriving DecidableEq

/-- Row of the `scoreboard_total` table (one Match Summary).

Modelled from the spec: the table schema (`tables.py`) is not part of the
sources; the spec describes a denormalized `name` column on the totals
table that the search branch of `Community.matches` filters on, distinct
from the `community_name` scoping key, and flags it as a known
inconsistency.  `create_match` never sets it, so it is `Option String`
(SQL NULL when absent). -/
structure ScoreboardTotalRow where
  match_id : String
  team_1_name : String
  team_2_name : String
  team_1_side : Int
  team_2_side : Int
  team_1_score : Int
  team_2_score : Int
  map : String
  community_name : String
  name : Option String
  status : Int
  demo_status : Int
  timestamp : Nat
deriving DecidableEq

/-- Row of the per-player `scoreboard` table (only the columns the
embedded queries touch). -/
structure ScoreboardRow where
  match_id : String
  steam_id : String
deriving DecidableEq

/-- Row of the `user` table (only the columns the embedded queries touch). -/
structure UserRow where
  steam_id : String
  name : String
deriving DecidableEq

/-- The database state: one list of rows per table. -/
structure DB where
  community : List CommunityRow
  api_key : List ApiKeyRow
  scoreboard_total : List ScoreboardTotalRow
  scoreboard : List ScoreboardRow
  user : List UserRow
deriving DecidableEq

/-- The `Community` handle object (holds just the community name). -/
structure Community where
  community_name : String
deriving DecidableEq

/-- Summary model `CommunityModel`: the view returned by `Community.get` and
`create_community` (columns `api_key`, `owner_id`, `disabled`,
`community_name`). -/
structure CommunityModel where
  api_key : String
  owner_id : String
  disabled : Bool
  community_name : String
deriving DecidableEq

/-- The `Match` handle object. -/
structure Match where
  match_id : String
  community_name : String
deriving DecidableEq

/-- Domain exceptions of `SQLMatches.community.exceptions`. -/
inductive DomainError where
  | communityTaken
  | alreadyCommunity
  | invalidCommunity
  | noOwnership
  | invalidAPIKey
deriving DecidableEq

/-- Failures the persistence layer can raise while executing the
community insert: a uniqueness-constraint violation, or any other
environment failure (modelled by `connectionLost`). -/
inductive PersistFailure where
  | uniqueViolation
  | connectionLost
deriving DecidableEq

/-- All `(community, api_key)` row pairs satisfying the join condition
`community.community_name == api_key.community_name` used by both
`Community.get` and `api_key_to_community`. -/
def DB.communityKeyPairs (db : DB) : List (CommunityRow × ApiKeyRow) :=
  db.community.flatMap fun c =>
    (db.api_key.filter fun k => k.community_name == c.community_name).map fun k => (c, k)

/-- Embeds `Community.get`: `SELECT api_key, owner_id, disabled, community_name
FROM community JOIN api_key ON community_name WHERE community_name = self
AND master = 1`, `fetch_one`; raises `InvalidCommunity` when no row. -/
def Community.get (db : DB) (self : Community) : Except DomainError CommunityModel :=
  match (db.communityKeyPairs.filter fun p =>
      p.1.community_name == self.community_name && p.2.master).head? with
  | some p => Except.ok ⟨p.2.api_key, p.2.owner_id, p.1.disabled, p.1.community_name⟩
  | none => Except.error DomainError.invalidCommunity

/-- Embeds `api_key_to_community`: joins community and api_key, filters on
`api_key = key AND disabled = 0`, `fetch_one`; raises `InvalidAPIKey`
when no row, else returns the handle and the row's master flag. -/
def api_key_to_community (db : DB) (api_key : String) : Except DomainError (Community × Bool) :=
  match (db.communityKeyPairs.filter fun p =>
      p.2.api_key == api_key && p.1.disabled == false).head? with
  | some p => Except.ok (⟨p.1.community_name⟩, p.2.master)
  | none => Except.error DomainError.invalidAPIKey

/-- Embeds `get_community_from_owner`: `fetch_val` of the first community name
with `owner_id = steam_id AND disabled = 0`; the source then tests the
fetched value for Python truthiness (`if community_name:`), so an empty
string also raises `NoOwnership`. -/
def get_community_from_owner (db : DB) (steam_id : String) : Except DomainError Community :=
  match (db.community.filter fun c =>
      c.owner_id == steam_id && c.disabled == false).head? with
  | some c =>
      if c.community_name == "" then Except.error DomainError.noOwnership
      else Except.ok ⟨c.community_name⟩
  | none => Except.error DomainError.noOwnership

/-- Embeds `owner_exists`: `COUNT(*) > 0` over communities with
`owner_id = steam_id AND disabled = 0`. -/
def owner_exists (db : DB) (steam_id : String) : Bool :=
  0 < (db.community.filter fun c =>
    c.owner_id == steam_id && c.disabled == false).length

/-- Embeds `Community.exists`: `COUNT(*) > 0` over communities with this name
(no disabled filter). -/
def Community.exists (db : DB) (self : Community) : Bool :=
  0 < (db.community.filter fun c =>
    c.community_name == self.community_name).length

/-- Embeds `Community.disable`: `UPDATE community SET disabled = 1 WHERE
community_name = self`. -/
def Community.disable (db : DB) (self : Community) : DB :=
  { db with community := db.community.map fun c =>
      if c.community_name == self.community_name then { c with disabled := true } else c }

/-- Embeds `Community.regenerate`: `key = token_urlsafe(24)` (passed in as
`key`), then `UPDATE api_key SET api_key = key WHERE community_name =
self AND api_key = old_key`; returns the generated key. -/
def Community.regenerate (db : DB) (self : Community) (old_key key : String) : String × DB :=
  (key, { db with api_key := db.api_key.map fun k =>
      if k.community_name == self.community_name && k.api_key == old_key then
        { k with api_key := key } else k })

/-- Embeds `Community.regenerate_master`: `UPDATE api_key SET api_key = key
WHERE community_name = self AND master = 1`; returns the generated key. -/
def Community.regenerate_master (db : DB) (self : Community) (key : String) : String × DB :=
  (key, { db with api_key := db.api_key.map fun k =>
      if k.community_name == self.community_name && k.master then
        { k with api_key := key } else k })

/-- Embeds `Community.create_match`: inserts one `scoreboard_total` row with
`status = 1`, `demo_status = 0`, the generated `match_id` and current
timestamp; the insert does not set the spec-modelled `name` column, so
it stays NULL (`none`). Returns a `Match` handle. -/
def Community.create_match (db : DB) (self : Community) (match_id : String)
    (team_1_name team_2_name : String) (team_1_side team_2_side : Int)
    (team_1_score team_2_score : Int) (map_name : String) (now : Nat) : DB × Match :=
  ({ db with scoreboard_total := db.scoreboard_total ++
      [{ match_id := match_id, team_1_name := team_1_name, team_2_name := team_2_name,
         team_1_side := team_1_side, team_2_side := team_2_side,
         team_1_score := team_1_score, team_2_score := team_2_score,
         map := map_name, community_name := self.community_name,
         name := none, status := 1, demo_status := 0, timestamp := now }] },
   ⟨match_id, self.community_name⟩)

/-- Executing the community insert: the name-uniqueness constraint fires
when a community row with the same name already exists; otherwise the
environment may still fail the statement (`fault`), else the row is
appended. -/
def community_insert (db : DB) (row : CommunityRow) (fault : Option PersistFailure) :
    Except PersistFailure DB :=
  if db.community.any fun c => c.community_name == row.community_name then
    Except.error PersistFailure.uniqueViolation
  else
    match fault with
    | some f => Except.error f
    | none => Except.ok { db with community := db.community ++ [row] }

/-- Embeds `create_community`: raises `AlreadyCommunity` when `owner_exists`;
executes the community insert inside `try ... except Exception: raise
CommunityTaken()`; on success inserts the master api_key row and returns
the `CommunityModel` and a `Community` handle.  The second component of
the result is the database state afterwards. -/
def create_community (db : DB) (steam_id community_name : String)
    (disabled demos : Bool) (api_key : String) (now : Nat)
    (fault : Option PersistFailure) :
    Except DomainError (CommunityModel × Community) × DB :=
  if owner_exists db steam_id then
    (Except.error DomainError.alreadyCommunity, db)
  else
    match community_insert db ⟨community_name, steam_id, disabled, demos, now⟩ fault with
    | Except.error _ => (Except.error DomainError.communityTaken, db)
    | Except.ok db1 =>
        (Except.ok (⟨api_key, steam_id, disabled, community_name⟩, ⟨community_name⟩),
         { db1 with api_key := db1.api_key ++ [⟨api_key, steam_id, community_name, true, now⟩] })

/-- Schema invariant: api-key strings are globally unique. -/
def ApiKeysUnique (db : DB) : Prop :=
  ∀ k1 ∈ db.api_key, ∀ k2 ∈ db.api_key, k1.api_key = k2.api_key → k1 = k2

instance (db : DB) : Decidable (ApiKeysUnique db) := by
  unfold ApiKeysUnique; infer_instance

/-- Schema invariant: community names are unique (primary key). -/
def CommunityNamesUnique (db : DB) : Prop :=
  ∀ c1 ∈ db.community, ∀ c2 ∈ db.community, c1.community_name = c2.community_name → c1 = c2

instance (db : DB) : Decidable (CommunityNamesUnique db) := by
  unfold CommunityNamesUnique; infer_instance

/-- A `(community, api_key)` row pair matched by `api_key_to_community`:
joined on community name, enabled, and carrying the looked-up key. -/
def keyMatch (db : DB) (key : String) (c : CommunityRow) (k : ApiKeyRow) : Prop :=
  c ∈ db.community ∧ k ∈ db.api_key ∧ k.community_name = c.community_name ∧
    k.api_key = key ∧ c.disabled = false

instance (db : DB) (key : String) (c : CommunityRow) (k : ApiKeyRow) :
    Decidable (keyMatch db key c k) := by
  unfold keyMatch; infer_instance

theorem mem_communityKeyPairs {db : DB} {c : CommunityRow} {k : ApiKeyRow} :
    (c, k) ∈ db.communityKeyPairs ↔
      c ∈ db.community ∧ k ∈ db.api_key ∧ k.community_name = c.community_name := by
  simp only [DB.communityKeyPairs, List.mem_flatMap, List.mem_map, List.mem_filter,
    beq_iff_eq, Prod.mk.injEq]
  constructor
  · rintro ⟨a, ha, b, ⟨hb, hbn⟩, hac, hbk⟩
    subst hac; subst hbk; exact ⟨ha, hb, hbn⟩
  · rintro ⟨hc, hk, hn⟩
    exact ⟨c, hc, k, ⟨hk, hn⟩, rfl, rfl⟩

theorem mem_get_filter (db : DB) (self : Community) (p : CommunityRow × ApiKeyRow) :
    p ∈ (db.communityKeyPairs.filter fun p =>
        p.1.community_name == self.community_name && p.2.master) ↔
      (p.1 ∈ db.community ∧ p.2 ∈ db.api_key ∧ p.1.community_name = self.community_name ∧
        p.2.community_name = self.community_name ∧ p.2.master = true) := by
  obtain ⟨c, k⟩ := p
  rw [List.mem_filter, mem_communityKeyPairs]
  simp only [Bool.and_eq_true, beq_iff_eq]
  constructor
  · rintro ⟨⟨hc, hk, hj⟩, hn, hm⟩
    exact ⟨hc, hk, hn, hj.trans hn, hm⟩
  · rintro ⟨hc, hk, hn, hkn, hm⟩
    exact ⟨⟨hc, hk, hkn.trans hn.symm⟩, ⟨hn, hm⟩⟩

/-- C4: `Community.get` joins the community row with its master API-key
row and returns the combined summary exactly when such a joined row
exists — with no filter on `disabled` — and raises `InvalidCommunity`
exactly when no joined row matches the name. -/
theorem Community.get_spec (db : DB) (self : Community) :
    ((∃ m, Community.get db self = Except.ok m) ↔
      ∃ c ∈ db.community, ∃ k ∈ db.api_key,
        c.community_name = self.community_name ∧
          k.community_name = self.community_name ∧ k.master = true) ∧
    (Community.get db self = Except.error DomainError.invalidCommunity ↔
      ¬ ∃ c ∈ db.community, ∃ k ∈ db.api_key,
        c.community_name = self.community_name ∧
          k.community_name = self.community_name ∧ k.master = true) := by
  unfold Community.get
  cases hh : (db.communityKeyPairs.filter fun p =>
      p.1.community_name == self.community_name && p.2.master).head? with
  | none =>
      have hnil : (db.communityKeyPairs.filter fun p =>
          p.1.community_name == self.community_name && p.2.master) = [] :=
        List.head?_eq_none_iff.mp hh
      have hP : ¬ ∃ c ∈ db.community, ∃ k ∈ db.api_key,
          c.community_name = self.community_name ∧
            k.community_name = self.community_name ∧ k.master = true := by
        rintro ⟨c, hc, k, hk, h1, h2, h3⟩
        have hmem := (mem_get_filter db self (c, k)).mpr ⟨hc, hk, h1, h2, h3⟩
        rw [hnil] at hmem
        exact absurd hmem (List.not_mem_nil _)
      refine ⟨⟨fun ⟨m, hm⟩ => absurd hm (by simp), fun h => absurd h hP⟩,
        ⟨fun _ => hP, fun _ => rfl⟩⟩
  | some p =>
      have hpm := List.mem_of_mem_head? hh
      obtain ⟨hc, hk, h1, h2, h3⟩ := (mem_get_filter db self p).mp hpm
      have hP : ∃ c ∈ db.community, ∃ k ∈ db.api_key,
          c.community_name = self.community_name ∧
            k.community_name = self.community_name ∧ k.master = true :=
        ⟨p.1, hc, p.2, hk, h1, h2, h3⟩
      refine ⟨⟨fun _ => hP, fun _ => ⟨_, rfl⟩⟩,
        ⟨fun he => absurd he (by simp), fun hng => absurd hP hng⟩⟩

theorem mem_apiKey_filter (db : DB) (key : String) (p : CommunityRow × ApiKeyRow) :
    p ∈ (db.communityKeyPairs.filter fun p =>
        p.2.api_key == key && p.1.disabled == false) ↔ keyMatch db key p.1 p.2 := by
  obtain ⟨c, k⟩ := p
  rw [List.mem_filter, mem_communityKeyPairs]
  unfold keyMatch
  simp only [Bool.and_eq_true, beq_iff_eq]
  constructor
  · rintro ⟨⟨hc, hk, hj⟩, ha, hd⟩
    exact ⟨hc, hk, hj, ha, hd⟩
  · rintro ⟨hc, hk, hj, ha, hd⟩
    exact ⟨⟨hc, hk, hj⟩, ⟨ha, hd⟩⟩

theorem keyMatch_unique {db : DB} {key : String}
    (hk : ApiKeysUnique db) (hc : CommunityNamesUnique db)
    {c c' : CommunityRow} {k k' : ApiKeyRow}
    (h : keyMatch db key c k) (h' : keyMatch db key c' k') : c = c' ∧ k = k' := by
  obtain ⟨hcm, hkm, hj, ha, _⟩ := h
  obtain ⟨hcm', hkm', hj', ha', _⟩ := h'
  have hkk : k = k' := hk k hkm k' hkm' (ha.trans ha'.symm)
  subst hkk
  exact ⟨hc c hcm c' hcm' (hj.symm.trans hj'), rfl⟩

/-- C5: given the schema invariants that api-key strings and community
names are unique, `api_key_to_community` succeeds — returning the
community handle and the key's master flag — exactly when exactly one
enabled community has an API-key row carrying the given string, and
raises `InvalidAPIKey` in every other case. -/
theorem api_key_to_community_spec (db : DB) (key : String)
    (hk : ApiKeysUnique db) (hc : CommunityNamesUnique db) :
    ((∃ c k, keyMatch db key c k) ↔
        ∃! p : CommunityRow × ApiKeyRow, keyMatch db key p.1 p.2) ∧
    ((∃ c k, keyMatch db key c k) ↔ ∃ r, api_key_to_community db key = Except.ok r) ∧
    (∀ c k, keyMatch db key c k →
        api_key_to_community db key = Except.ok (⟨c.community_name⟩, k.master)) ∧
    ((¬ ∃ c k, keyMatch db key c k) →
        api_key_to_community db key = Except.error DomainError.invalidAPIKey) := by
  unfold api_key_to_community
  cases hh : (db.communityKeyPairs.filter fun p =>
      p.2.api_key == key && p.1.disabled == false).head? with
  | none =>
      have hnil : (db.communityKeyPairs.filter fun p =>
          p.2.api_key == key && p.1.disabled == false) = [] :=
        List.head?_eq_none_iff.mp hh
      have hP : ¬ ∃ c k, keyMatch db key c k := by
        rintro ⟨c, k, h⟩
        have hmem := (mem_apiKey_filter db key (c, k)).mpr h
        rw [hnil] at hmem
        exact absurd hmem (List.not_mem_nil _)
      refine ⟨⟨fun h => absurd h hP, fun ⟨p, hp, _⟩ => absurd ⟨p.1, p.2, hp⟩ hP⟩,
        ⟨fun h => absurd h hP, fun ⟨r, hr0⟩ => absurd hr0 (by simp)⟩,
        fun c k h => absurd ⟨c, k, h⟩ hP, fun _ => rfl⟩
  | some p =>
      have hpm := List.mem_of_mem_head? hh
      have hkm := (mem_apiKey_filter db key p).mp hpm
      refine ⟨⟨fun _ => ⟨p, hkm, ?_⟩, fun _ => ⟨p.1, p.2, hkm⟩⟩,
        ⟨fun _ => ⟨_, rfl⟩, fun _ => ⟨p.1, p.2, hkm⟩⟩, fun c k h => ?_,
        fun hng => absurd ⟨p.1, p.2, hkm⟩ hng⟩
      · intro q hq
        obtain ⟨h1, h2⟩ := keyMatch_unique hk hc hq hkm
        exact Prod.ext h1 h2
      · obtain ⟨h1, h2⟩ := keyMatch_unique hk hc h hkm
        rw [h1, h2]

/-- C2: `create_community` raises `AlreadyCommunity` before any write
when the identity already owns a non-disabled community (state
unchanged); raises `CommunityTaken` when the community insert hits the
name-uniqueness constraint (state unchanged); otherwise appends exactly
one community row followed by exactly one master api_key row and returns
the summary together with a handle. -/
theorem create_community_spec (db : DB) (sid cname : String) (dis dem : Bool)
    (key : String) (now : Nat) (fault : Option PersistFailure) :
    (owner_exists db sid = true →
       create_community db sid cname dis dem key now fault =
         (Except.error DomainError.alreadyCommunity, db)) ∧
    (owner_exists db sid = false →
       (∃ c ∈ db.community, c.community_name = cname) →
       create_community db sid cname dis dem key now fault =
         (Except.error DomainError.communityTaken, db)) ∧
    (owner_exists db sid = false →
       (∀ c ∈ db.community, c.community_name ≠ cname) →
       fault = none →
       create_community db sid cname dis dem key now fault =
         (Except.ok (⟨key, sid, dis, cname⟩, ⟨cname⟩),
          { db with community := db.community ++ [⟨cname, sid, dis, dem, now⟩],
                    api_key := db.api_key ++ [⟨key, sid, cname, true, now⟩] })) := by
  refine ⟨fun h => ?_, fun h hex => ?_, fun h hnone hf => ?_⟩
  · simp [create_community, h]
  · obtain ⟨c, hc, hcn⟩ := hex
    have hany : (db.community.any fun c => c.community_name == cname) = true :=
      List.any_eq_true.mpr ⟨c, hc, by simp [hcn]⟩
    simp [create_community, community_insert, h, hany]
  · have hany : (db.community.any fun c => c.community_name == cname) = false := by
      rw [Bool.eq_false_iff]
      intro hcon
      obtain ⟨c, hc, hcn⟩ := List.any_eq_true.mp hcon
      exact hnone c hc (by simpa using hcn)
    subst hf
    simp [create_community, community_insert, h, hany]

/-- C2 witness: creating community `alpha` for `S1` on an empty database
succeeds, inserting the community row and its master key row. -/
theorem create_community_spec_witness :
    owner_exists ⟨[], [], [], [], []⟩ "S1" = false ∧
    (∀ c ∈ (⟨[], [], [], [], []⟩ : DB).community, c.community_name ≠ "alpha") ∧
    create_community ⟨[], [], [], [], []⟩ "S1" "alpha" false true "K" 0 none =
      (Except.ok (⟨"K", "S1", false, "alpha"⟩, ⟨"alpha"⟩),
       { (⟨[], [], [], [], []⟩ : DB) with
           community := [] ++ [⟨"alpha", "S1", false, true, 0⟩],
           api_key := [] ++ [⟨"K", "S1", "alpha", true, 0⟩] }) :=
  ⟨by decide, by decide,
    (create_community_spec ⟨[], [], [], [], []⟩ "S1" "alpha" false true "K" 0 none).2.2
      (by decide) (by decide) rfl⟩

/-- C3 counterexample: a persistence failure that is *not* a uniqueness
violation (`connectionLost`, with the name `alpha` unused) is still
translated into `CommunityTaken` by the bare `except Exception` clause,
instead of propagating to the caller. -/
theorem create_community_catch_cex :
    (∀ c ∈ (⟨[], [], [], [], []⟩ : DB).community, c.community_name ≠ "alpha") ∧
    community_insert ⟨[], [], [], [], []⟩ ⟨"alpha", "S1", false, true, 0⟩
        (some PersistFailure.connectionLost) =
      Except.error PersistFailure.connectionLost ∧
    create_community ⟨[], [], [], [], []⟩ "S1" "alpha" false true "K" 0
        (some PersistFailure.connectionLost) =
      (Except.error DomainError.communityTaken, ⟨[], [], [], [], []⟩) :=
  ⟨by decide, rfl, rfl⟩

/-- C3 (amended): `create_community` catches *every* failure of the
community insert — uniqueness violation or not — and translates it into
`CommunityTaken`; no persistence failure of that insert propagates to
the caller. -/
theorem create_community_catch_all (db : DB) (sid cname : String) (dis dem : Bool)
    (key : String) (now : Nat) (fault : Option PersistFailure)
    (h : owner_exists db sid = false)
    (hfail : ∃ e, community_insert db ⟨cname, sid, dis, dem, now⟩ fault = Except.error e) :
    create_community db sid cname dis dem key now fault =
      (Except.error DomainError.communityTaken, db) := by
  obtain ⟨e, he⟩ := hfail
  simp [create_community, h, he]

/-- C3 witness: with an unrelated community present, a `connectionLost`
failure of the insert yields `CommunityTaken` with the state unchanged. -/
theorem create_community_catch_all_witness :
    owner_exists ⟨[⟨"beta", "S2", false, true, 0⟩], [], [], [], []⟩ "S1" = false ∧
    create_community ⟨[⟨"beta", "S2", false, true, 0⟩], [], [], [], []⟩ "S1" "alpha"
        false true "K" 0 (some PersistFailure.connectionLost) =
      (Except.error DomainError.communityTaken,
       ⟨[⟨"beta", "S2", false, true, 0⟩], [], [], [], []⟩) :=
  ⟨by decide,
    create_community_catch_all ⟨[⟨"beta", "S2", false, true, 0⟩], [], [], [], []⟩
      "S1" "alpha" false true "K" 0 (some PersistFailure.connectionLost)
      (by decide) ⟨PersistFailure.connectionLost, rfl⟩⟩

theorem api_key_to_community_no_match {db : DB} {key : String}
    (h : ∀ p : CommunityRow × ApiKeyRow, p ∈ db.communityKeyPairs →
       ¬(p.2.api_key = key ∧ p.1.disabled = false)) :
    api_key_to_community db key = Except.error DomainError.invalidAPIKey := by
  unfold api_key_to_community
  have hnil : (db.communityKeyPairs.filter fun p =>
      p.2.api_key == key && p.1.disabled == false) = [] := by
    rw [List.filter_eq_nil_iff]
    intro p hp
    simp only [Bool.and_eq_true, beq_iff_eq, not_and]
    intro h1 h2
    exact h p hp ⟨h1, h2⟩
  rw [hnil]
  rfl

theorem api_key_to_community_ok_of_pair {db : DB} {key : String}
    {p : CommunityRow × ApiKeyRow} (hp : p ∈ db.communityKeyPairs)
    (h1 : p.2.api_key = key) (h2 : p.1.disabled = false) :
    ∃ r, api_key_to_community db key = Except.ok r := by
  unfold api_key_to_community
  cases hh : (db.communityKeyPairs.filter fun p =>
      p.2.api_key == key && p.1.disabled == false).head? with
  | some q => exact ⟨_, rfl⟩
  | none =>
      have hnil := List.head?_eq_none_iff.mp hh
      have hmem : p ∈ (db.communityKeyPairs.filter fun p =>
          p.2.api_key == key && p.1.disabled == false) :=
        List.mem_filter.mpr ⟨hp, by simp [h1, h2]⟩
      rw [hnil] at hmem
      exact absurd hmem (List.not_mem_nil _)

theorem get_ok_of_pair {db : DB} {self : Community}
    {p : CommunityRow × ApiKeyRow} (hp : p ∈ db.communityKeyPairs)
    (h1 : p.1.community_name = self.community_name) (h2 : p.2.master = true) :
    ∃ m, Community.get db self = Except.ok m := by
  unfold Community.get
  cases hh : (db.communityKeyPairs.filter fun p =>
      p.1.community_name == self.community_name && p.2.master).head? with
  | some q => exact ⟨_, rfl⟩
  | none =>
      have hnil := List.head?_eq_none_iff.mp hh
      have hmem : p ∈ (db.communityKeyPairs.filter fun p =>
          p.1.community_name == self.community_name && p.2.master) :=
        List.mem_filter.mpr ⟨hp, by simp [h1, h2]⟩
      rw [hnil] at hmem
      exact absurd hmem (List.not_mem_nil _)

/-- C6: once an enabled community (with a master key row, under the
schema invariants of unique key strings and at most one enabled
community per owner) is disabled, every lookup of any of its keys raises
`InvalidAPIKey` and the owner lookup raises `NoOwnership`, while
`Community.exists` and `Community.get` still find the community. -/
theorem disable_spec (db : DB) (name : String) (c : CommunityRow)
    (hc : c ∈ db.community) (hname : c.community_name = name) (hen : c.disabled = false)
    (hk : ApiKeysUnique db)
    (hone : ∀ c' ∈ db.community, c'.owner_id = c.owner_id → c'.disabled = false → c' = c)
    (hmaster : ∃ k ∈ db.api_key, k.community_name = name ∧ k.master = true) :
    (∀ k ∈ db.api_key, k.community_name = name →
       api_key_to_community (Community.disable db ⟨name⟩) k.api_key =
         Except.error DomainError.invalidAPIKey) ∧
    get_community_from_owner (Community.disable db ⟨name⟩) c.owner_id =
      Except.error DomainError.noOwnership ∧
    Community.exists (Community.disable db ⟨name⟩) ⟨name⟩ = true ∧
    (∃ m, Community.get (Community.disable db ⟨name⟩) ⟨name⟩ = Except.ok m) := by
  have hmemC : ({ c with disabled := true } : CommunityRow) ∈
      (Community.disable db ⟨name⟩).community := by
    unfold Community.disable
    simp only [List.mem_map]
    exact ⟨c, hc, by simp [hname]⟩
  have hcomm : ∀ c' ∈ (Community.disable db ⟨name⟩).community,
      c'.community_name = name → c'.disabled = true := by
    intro c' hc' hcn
    unfold Community.disable at hc'
    simp only [List.mem_map] at hc'
    obtain ⟨c0, hc0, heq⟩ := hc'
    by_cases hb : c0.community_name = name
    · rw [if_pos (by simp [hb])] at heq
      rw [← heq]
    · rw [if_neg (by simp [hb])] at heq
      rw [← heq] at hcn
      exact absurd hcn hb
  refine ⟨?_, ?_, ?_, ?_⟩
  · intro k hkmem hkcn
    apply api_key_to_community_no_match
    rintro ⟨c', k'⟩ hp ⟨hkey, hdis⟩
    obtain ⟨hc', hk', hj⟩ := mem_communityKeyPairs.mp hp
    have hk'db : k' ∈ db.api_key := hk'
    have hkk : k' = k := hk k' hk'db k hkmem hkey
    have hcn' : c'.community_name = name := by
      rw [← hj, hkk, hkcn]
    exact absurd (hcomm c' hc' hcn') (by rw [hdis]; decide)
  · unfold get_community_from_owner
    have hnil : ((Community.disable db ⟨name⟩).community.filter fun c' =>
        c'.owner_id == c.owner_id && c'.disabled == false) = [] := by
      rw [List.filter_eq_nil_iff]
      intro c' hc'
      simp only [Bool.and_eq_true, beq_iff_eq, not_and]
      intro how hdis
      unfold Community.disable at hc'
      simp only [List.mem_map] at hc'
      obtain ⟨c0, hc0, heq⟩ := hc'
      by_cases hb : c0.community_name = name
      · rw [if_pos (by simp [hb])] at heq
        rw [← heq] at hdis
        simp at hdis
      · rw [if_neg (by simp [hb])] at heq
        subst heq
        have := hone c0 hc0 how hdis
        subst this
        exact absurd hname hb
    rw [hnil]
    rfl
  · unfold Community.exists
    simp only [decide_eq_true_eq]
    apply List.length_pos_of_mem
    exact List.mem_filter.mpr ⟨hmemC, by simp [hname]⟩
  · exact get_ok_of_pair
      (p := ({ c with disabled := true }, Classical.choose hmaster))
      (mem_communityKeyPairs.mpr ⟨hmemC, (Classical.choose_spec hmaster).1,
        ((Classical.choose_spec hmaster).2.1).trans hname.symm⟩)
      hname (Classical.choose_spec hmaster).2.2

/-- C6 witness: community `alpha` (owner `S1`, master key `K`) is
enabled; after `disable`, key lookup and owner lookup fail while
`exists` and `get` still succeed. -/
theorem disable_spec_witness :
    ((⟨"alpha", "S1", false, true, 0⟩ : CommunityRow) ∈
        (⟨[⟨"alpha", "S1", false, true, 0⟩], [⟨"K", "S1", "alpha", true, 0⟩],
          [], [], []⟩ : DB).community ∧
      ApiKeysUnique ⟨[⟨"alpha", "S1", false, true, 0⟩],
        [⟨"K", "S1", "alpha", true, 0⟩], [], [], []⟩) ∧
    (∀ k ∈ (⟨[⟨"alpha", "S1", false, true, 0⟩], [⟨"K", "S1", "alpha", true, 0⟩],
        [], [], []⟩ : DB).api_key, k.community_name = "alpha" →
      api_key_to_community
        (Community.disable ⟨[⟨"alpha", "S1", false, true, 0⟩],
          [⟨"K", "S1", "alpha", true, 0⟩], [], [], []⟩ ⟨"alpha"⟩) k.api_key =
        Except.error DomainError.invalidAPIKey) ∧
    get_community_from_owner
        (Community.disable ⟨[⟨"alpha", "S1", false, true, 0⟩],
          [⟨"K", "S1", "alpha", true, 0⟩], [], [], []⟩ ⟨"alpha"⟩) "S1" =
      Except.error DomainError.noOwnership ∧
    Community.exists
        (Community.disable ⟨[⟨"alpha", "S1", false, true, 0⟩],
          [⟨"K", "S1", "alpha", true, 0⟩], [], [], []⟩ ⟨"alpha"⟩) ⟨"alpha"⟩ = true ∧
    (∃ m, Community.get
        (Community.disable ⟨[⟨"alpha", "S1", false, true, 0⟩],
          [⟨"K", "S1", "alpha", true, 0⟩], [], [], []⟩ ⟨"alpha"⟩) ⟨"alpha"⟩ =
      Except.ok m) :=
  ⟨⟨by decide, by decide⟩,
    disable_spec ⟨[⟨"alpha", "S1", false, true, 0⟩], [⟨"K", "S1", "alpha", true, 0⟩],
        [], [], []⟩ "alpha" ⟨"alpha", "S1", false, true, 0⟩
      (by decide) rfl rfl (by decide)
      (by intro c' hc' h1 h2; simp only [List.mem_singleton] at hc'; exact hc')
      ⟨⟨"K", "S1", "alpha", true, 0⟩, by decide, rfl, rfl⟩⟩

/-- C7 counterexample: `token_urlsafe` is a random generator with no
distinctness check, so the generated token can equal the stored key (the
embedding passes the generated token explicitly).  With previous key `K`
and generated token `K`, `regenerate` returns a key equal to the
previous one, the replaced key still resolves, and `regenerate_master`
likewise returns the unchanged key — refuting the claim as stated. -/
theorem rotate_distinct_cex :
    (Community.regenerate ⟨[⟨"alpha", "S1", false, true, 0⟩],
        [⟨"K", "S1", "alpha", true, 0⟩], [], [], []⟩ ⟨"alpha"⟩ "K" "K").1 = "K" ∧
    api_key_to_community
        (Community.regenerate ⟨[⟨"alpha", "S1", false, true, 0⟩],
          [⟨"K", "S1", "alpha", true, 0⟩], [], [], []⟩ ⟨"alpha"⟩ "K" "K").2 "K" =
      Except.ok (⟨"alpha"⟩, true) ∧
    (Community.regenerate_master ⟨[⟨"alpha", "S1", false, true, 0⟩],
        [⟨"K", "S1", "alpha", true, 0⟩], [], [], []⟩ ⟨"alpha"⟩ "K").1 = "K" :=
  ⟨rfl, rfl, rfl⟩

/-- C7 (amended): provided the generated token differs from every stored
key string, the community is enabled, key strings are unique, `old_key`
matches one of the community's key rows (for `regenerate`) and the
community has a master key row (for `regenerate_master`), each rotation
returns a key distinct from the replaced one, the new key resolves via
`api_key_to_community`, and the replaced key raises `InvalidAPIKey`. -/
theorem rotate_key_spec (db : DB) (name old_key fresh : String)
    (c : CommunityRow) (kOld kM : ApiKeyRow)
    (hc : c ∈ db.community) (hcn : c.community_name = name) (hen : c.disabled = false)
    (hk : ApiKeysUnique db)
    (hfresh : ∀ k ∈ db.api_key, k.api_key ≠ fresh)
    (holdm : kOld ∈ db.api_key) (holdn : kOld.community_name = name)
    (holdk : kOld.api_key = old_key)
    (hmm : kM ∈ db.api_key) (hmn : kM.community_name = name) (hmf : kM.master = true) :
    ((Community.regenerate db ⟨name⟩ old_key fresh).1 ≠ old_key ∧
     (∃ r, api_key_to_community (Community.regenerate db ⟨name⟩ old_key fresh).2 fresh =
        Except.ok r) ∧
     api_key_to_community (Community.regenerate db ⟨name⟩ old_key fresh).2 old_key =
       Except.error DomainError.invalidAPIKey) ∧
    ((Community.regenerate_master db ⟨name⟩ fresh).1 ≠ kM.api_key ∧
     (∃ r, api_key_to_community (Community.regenerate_master db ⟨name⟩ fresh).2 fresh =
        Except.ok r) ∧
     api_key_to_community (Community.regenerate_master db ⟨name⟩ fresh).2 kM.api_key =
       Except.error DomainError.invalidAPIKey) := by
  have hfne : old_key ≠ fresh := holdk ▸ hfresh kOld holdm
  have hmne : kM.api_key ≠ fresh := hfresh kM hmm
  constructor
  · refine ⟨fun hcon => hfne hcon.symm, ?_, ?_⟩
    · refine api_key_to_community_ok_of_pair
        (p := (c, { kOld with api_key := fresh }))
        (mem_communityKeyPairs.mpr ⟨hc, ?_, holdn.trans hcn.symm⟩) rfl hen
      have : ({ kOld with api_key := fresh } : ApiKeyRow) ∈ db.api_key.map fun k =>
          if k.community_name == name && k.api_key == old_key then
            { k with api_key := fresh } else k :=
        List.mem_map.mpr ⟨kOld, holdm, by simp [holdn, holdk]⟩
      exact this
    · apply api_key_to_community_no_match
      rintro ⟨c', k'⟩ hp ⟨hkey, _⟩
      obtain ⟨hc', hk', hj⟩ := mem_communityKeyPairs.mp hp
      have hk'm : k' ∈ db.api_key.map fun k =>
          if k.community_name == name && k.api_key == old_key then
            { k with api_key := fresh } else k := hk'
      obtain ⟨k0, hk0, heq⟩ := List.mem_map.mp hk'm
      by_cases hcond : (k0.community_name == name && k0.api_key == old_key) = true
      · rw [if_pos hcond] at heq
        rw [← heq] at hkey
        exact hfne hkey.symm
      · rw [if_neg hcond] at heq
        subst heq
        have hk0old : k0.api_key = kOld.api_key := hkey.trans holdk.symm
        have : k0 = kOld := hk k0 hk0 kOld holdm hk0old
        subst this
        exact hcond (by simp [holdn, holdk])
  · refine ⟨fun hcon => hmne hcon.symm, ?_, ?_⟩
    · refine api_key_to_community_ok_of_pair
        (p := (c, { kM with api_key := fresh }))
        (mem_communityKeyPairs.mpr ⟨hc, ?_, hmn.trans hcn.symm⟩) rfl hen
      have : ({ kM with api_key := fresh } : ApiKeyRow) ∈ db.api_key.map fun k =>
          if k.community_name == name && k.master then
            { k with api_key := fresh } else k :=
        List.mem_map.mpr ⟨kM, hmm, by simp [hmn, hmf]⟩
      exact this
    · apply api_key_to_community_no_match
      rintro ⟨c', k'⟩ hp ⟨hkey, _⟩
      obtain ⟨hc', hk', hj⟩ := mem_communityKeyPairs.mp hp
      have hk'm : k' ∈ db.api_key.map fun k =>
          if k.community_name == name && k.master then
            { k with api_key := fresh } else k := hk'
      obtain ⟨k0, hk0, heq⟩ := List.mem_map.mp hk'm
      by_cases hcond : (k0.community_name == name && k0.master) = true
      · rw [if_pos hcond] at heq
        rw [← heq] at hkey
        exact hmne hkey.symm
      · rw [if_neg hcond] at heq
        subst heq
        have : k0 = kM := hk k0 hk0 kM hmm hkey
        subst this
        exact hcond (by simp [hmn, hmf])

/-- C7 witness: rotating key `K` of enabled community `alpha` with
generated token `F` returns `F ≠ K`, `F` resolves, `K` no longer does;
likewise for the master rotation. -/
theorem rotate_key_spec_witness :
    (∀ k ∈ (⟨[⟨"alpha", "S1", false, true, 0⟩], [⟨"K", "S1", "alpha", true, 0⟩],
        [], [], []⟩ : DB).api_key, k.api_key ≠ "F") ∧
    ((Community.regenerate ⟨[⟨"alpha", "S1", false, true, 0⟩],
        [⟨"K", "S1", "alpha", true, 0⟩], [], [], []⟩ ⟨"alpha"⟩ "K" "F").1 ≠ "K" ∧
     (∃ r, api_key_to_community (Community.regenerate
        ⟨[⟨"alpha", "S1", false, true, 0⟩], [⟨"K", "S1", "alpha", true, 0⟩],
          [], [], []⟩ ⟨"alpha"⟩ "K" "F").2 "F" = Except.ok r) ∧
     api_key_to_community (Community.regenerate
        ⟨[⟨"alpha", "S1", false, true, 0⟩], [⟨"K", "S1", "alpha", true, 0⟩],
          [], [], []⟩ ⟨"alpha"⟩ "K" "F").2 "K" =
       Except.error DomainError.invalidAPIKey) ∧
    ((Community.regenerate_master ⟨[⟨"alpha", "S1", false, true, 0⟩],
        [⟨"K", "S1", "alpha", true, 0⟩], [], [], []⟩ ⟨"alpha"⟩ "F").1 ≠
       (⟨"K", "S1", "alpha", true, 0⟩ : ApiKeyRow).api_key ∧
     (∃ r, api_key_to_community (Community.regenerate_master
        ⟨[⟨"alpha", "S1", false, true, 0⟩], [⟨"K", "S1", "alpha", true, 0⟩],
          [], [], []⟩ ⟨"alpha"⟩ "F").2 "F" = Except.ok r) ∧
     api_key_to_community (Community.regenerate_master
        ⟨[⟨"alpha", "S1", false, true, 0⟩], [⟨"K", "S1", "alpha", true, 0⟩],
          [], [], []⟩ ⟨"alpha"⟩ "F").2
         (⟨"K", "S1", "alpha", true, 0⟩ : ApiKeyRow).api_key =
       Except.error DomainError.invalidAPIKey) :=
  ⟨by decide,
    rotate_key_spec ⟨[⟨"alpha", "S1", false, true, 0⟩], [⟨"K", "S1", "alpha", true, 0⟩],
        [], [], []⟩ "alpha" "K" "F" ⟨"alpha", "S1", false, true, 0⟩
      ⟨"K", "S1", "alpha", true, 0⟩ ⟨"K", "S1", "alpha", true, 0⟩
      (by decide) rfl rfl (by decide) (by decide) (by decide) rfl rfl
      (by decide) rfl rfl⟩

/-- The `ORDER BY timestamp` relation: descending when `d = true`,
ascending otherwise. -/
def tsRel : Bool → ScoreboardTotalRow → ScoreboardTotalRow → Prop
  | true, a, b => b.timestamp ≤ a.timestamp
  | false, a, b => a.timestamp ≤ b.timestamp

instance (d : Bool) : DecidableRel (tsRel d) := fun a b =>
  match d with
  | true => inferInstanceAs (Decidable (b.timestamp ≤ a.timestamp))
  | false => inferInstanceAs (Decidable (a.timestamp ≤ b.timestamp))

instance (d : Bool) : IsTotal ScoreboardTotalRow (tsRel d) :=
  ⟨by cases d <;> intro a b <;> simp [tsRel] <;> omega⟩

instance (d : Bool) : IsTrans ScoreboardTotalRow (tsRel d) :=
  ⟨by cases d <;> intro a b c <;> simp [tsRel] <;> omega⟩

/-- Sort modelling `ORDER BY timestamp DESC/ASC`, realised as a sort by `tsRel`. -/
def sortTs (d : Bool) (l : List ScoreboardTotalRow) : List ScoreboardTotalRow :=
  List.insertionSort (tsRel d) l

/-- Python truthiness of the `search` argument (`if search:` with
default `None`): active exactly for a non-`None`, non-empty string. -/
def searchActive : Option String → Bool
  | none => false
  | some s => !(s == "")

/-- Tests whether `pat` occurs as a contiguous sublist of `hay`. -/
def subChars (pat : List Char) : List Char → Bool
  | [] => pat == []
  | c :: rest => pat.isPrefixOf (c :: rest) || subChars pat rest

/-- Models SQL `LIKE` with wildcards around the search term under a case-insensitive collation. -/
def likeB (hay pat : String) : Bool :=
  subChars pat.toLower.data hay.toLower.data

/-- Models SQL `DISTINCT`: keep the first occurrence of each selected row. -/
def dedupFirst [DecidableEq α] (seen : List α) : List α → List α
  | [] => []
  | a :: rest =>
      if a ∈ seen then dedupFirst seen rest
      else a :: dedupFirst (a :: seen) rest

/-- The search branch of `Community.matches`: joins `scoreboard_total`
with `scoreboard` on `match_id` and with `user` on `steam_id`, filters
on `scoreboard_total.name == community_name` (the spec-modelled
denormalized column, *not* `community_name`) and the OR of the search
conditions, and deduplicates the selected totals rows. -/
def Community.searchRows (db : DB) (self : Community) (search : String) :
    List ScoreboardTotalRow :=
  let joined := db.scoreboard_total.flatMap fun st =>
    (db.scoreboard.filter fun sb => sb.match_id == st.match_id).flatMap fun sb =>
      (db.user.filter fun u => u.steam_id == sb.steam_id).map fun u => (st, sb, u)
  let hits := joined.filter fun p =>
    p.1.name == some self.community_name &&
      (p.1.match_id == search || likeB p.1.map search ||
       likeB p.1.team_1_name search || likeB p.1.team_2_name search ||
       likeB p.2.2.name search || p.2.2.steam_id == search)
  dedupFirst [] (hits.map fun p => p.1)

/-- Embeds `Community.matches`: branch on the truthiness of `search`, order by
timestamp (descending by default), apply `LIMIT limit` and
`OFFSET (page - 1) * limit if page > 1 else 0`.  Returns the selected
`scoreboard_total` rows. -/
def Community.matches (db : DB) (self : Community) (search : Option String)
    (page : Int) (limit : Nat) (desc : Bool) : List ScoreboardTotalRow :=
  let base :=
    if searchActive search then Community.searchRows db self (search.getD "")
    else db.scoreboard_total.filter fun st => st.community_name == self.community_name
  ((sortTs desc base).drop (if 1 < page then ((page - 1) * limit).toNat else 0)).take limit

/-- The `MatchModel` view built from each selected row. -/
structure MatchModel where
  match_id : String
  timestamp : Nat
  status : Int
  demo_status : Int
  map : String
  team_1_name : String
  team_2_name : String
  team_1_score : Int
  team_2_score : Int
  team_1_side : Int
  team_2_side : Int
deriving DecidableEq

def toMatchModel (r : ScoreboardTotalRow) : MatchModel :=
  ⟨r.match_id, r.timestamp, r.status, r.demo_status, r.map, r.team_1_name,
   r.team_2_name, r.team_1_score, r.team_2_score, r.team_1_side, r.team_2_side⟩

/-- The generator's yields: one `(MatchModel, Match)` pair per row. -/
def Community.matchesModels (db : DB) (self : Community) (search : Option String)
    (page : Int) (limit : Nat) (desc : Bool) : List (MatchModel × Match) :=
  (Community.matches db self search page limit desc).map fun r =>
    (toMatchModel r, ⟨r.match_id, self.community_name⟩)

/-- Example Match Summary row number `i` for community `alpha`, with
timestamp `i`. -/
def exRow8 (i : Nat) : ScoreboardTotalRow :=
  ⟨toString i, "TeamA", "TeamB", 1, 2, 0, 0, "de_dust2", "alpha", none, 1, 0, i⟩

/-- Example database with 12 matches (timestamps 1 through 12) for
community `alpha`. -/
def exDb8 : DB :=
  ⟨[⟨"alpha", "S1", false, true, 0⟩], [],
   (List.range 12).map fun i => exRow8 (i + 1), [], []⟩

/-- C8: without a search term, `Community.matches` returns rows of this
community only, ordered by timestamp in the requested direction, at most
`limit` of them, and equal to the sorted community rows after skipping
`(page - 1) * limit` rows when `page > 1` and `0` otherwise; over 12
matches with `page = 1`, `limit = 5`, `desc = true` it returns exactly
the 5 newest, newest first. -/
theorem matches_no_search_spec (db : DB) (self : Community) (page : Int)
    (limit : Nat) (desc : Bool) :
    (∀ r ∈ Community.matches db self none page limit desc,
       r.community_name = self.community_name) ∧
    List.Pairwise (tsRel desc) (Community.matches db self none page limit desc) ∧
    (Community.matches db self none page limit desc).length ≤ limit ∧
    Community.matches db self none page limit desc =
      ((sortTs desc (db.scoreboard_total.filter fun st =>
          st.community_name == self.community_name)).drop
        (if 1 < page then ((page - 1) * limit).toNat else 0)).take limit ∧
    (Community.matches exDb8 ⟨"alpha"⟩ none 1 5 true).map (fun r => r.timestamp) =
      [12, 11, 10, 9, 8] := by
  have hdef : Community.matches db self none page limit desc =
      ((sortTs desc (db.scoreboard_total.filter fun st =>
          st.community_name == self.community_name)).drop
        (if 1 < page then ((page - 1) * limit).toNat else 0)).take limit := rfl
  refine ⟨?_, ?_, ?_, hdef, ?_⟩
  · intro r hr
    rw [hdef] at hr
    have h1 : r ∈ sortTs desc (db.scoreboard_total.filter fun st =>
        st.community_name == self.community_name) :=
      ((List.take_sublist _ _).trans (List.drop_sublist _ _)).subset hr
    have h2 : r ∈ db.scoreboard_total.filter fun st =>
        st.community_name == self.community_name :=
      (List.mem_insertionSort _).mp h1
    exact beq_iff_eq.mp (List.mem_filter.mp h2).2
  · rw [hdef]
    exact List.Pairwise.sublist ((List.take_sublist _ _).trans (List.drop_sublist _ _))
      (List.sorted_insertionSort (tsRel desc) _)
  · rw [hdef]
    exact List.length_take_le _ _
  · rfl

/-- Example database for the search claim: community `alpha` with one
match `m1` created through `create_match` (so the spec-modelled `name`
column of its totals row is NULL), one scoreboard row for that match and
the corresponding user row. -/
def db9 : DB :=
  (Community.create_match
    ⟨[⟨"alpha", "S1", false, true, 0⟩], [⟨"K", "S1", "alpha", true, 0⟩], [],
      [⟨"m1", "76561198000000001"⟩], [⟨"76561198000000001", "PlayerOne"⟩]⟩
    ⟨"alpha"⟩ "m1" "TeamA" "TeamB" 2 3 16 14 "de_dust2" 100).1

/-- C9: searching for the exact id of an existing match of the community
returns the empty list, because the search branch filters on the totals
table's `name` column — never populated by `create_match` — rather than
on `community_name`; the same match *is* returned by the no-search
branch of the very same function. -/
theorem matches_search_by_id_cex :
    Community.matches db9 ⟨"alpha"⟩ (some "m1") 1 5 true = [] ∧
    (Community.matches db9 ⟨"alpha"⟩ none 1 5 true).map (fun r => r.match_id) =
      ["m1"] :=
  ⟨rfl, rfl⟩

/-- C10: calling `matches` with `search = ""` takes the no-search branch
(the source tests the truthiness of the string, and `""` is falsy like
`None`), so the result is identical to calling it with no search term. -/
theorem matches_empty_search_eq (db : DB) (self : Community) (page : Int)
    (limit : Nat) (desc : Bool) :
    Community.matches db self (some "") page limit desc =
      Community.matches db self none page limit desc := rfl

/-- Cached payload for a version: the JSON dict with a `message` key.
Any such dict is non-empty, hence truthy in Python, whatever the value. -/
structure VersionData where
  message : Option String
deriving DecidableEq

/-- Row of the `update` table. -/
structure UpdateRow where
  version : String
  message : String
deriving DecidableEq

/-- A Python runtime error escaping the handler. -/
inductive PyError where
  | attributeError
deriving DecidableEq

/-- Result of the handler: a success envelope or an error envelope
carrying an error kind name. -/
inductive ApiResult where
  | response : VersionData → ApiResult
  | errorResponse : String → ApiResult
deriving DecidableEq

set_option linter.unusedVariables false in
/-- Embeds `VersionAPI.get` (src/SQLMatches/routes/api/misc.py): consult
the version cache and return the cached payload on a hit (a non-empty
dict, hence truthy).  On a miss the source evaluates
`select([update_table.c.message]).select_form(update_table)`, but the
SQLAlchemy `Select` object has no attribute `select_form` (a typo for
`select_from`), so an `AttributeError` is raised before any query runs;
the rest of the function — `fetch_val` with the filter
`update_table.c.version >= version`, caching `{"message": cache_get}`,
and the `InvalidVersion` envelope — is unreachable.  The `updates` table
is kept as a parameter to record the intended query's data. -/
def VersionAPI.get (cache : String → Option VersionData) (updates : List UpdateRow)
    (version : String) : Except PyError ApiResult :=
  match cache version with
  | some d => Except.ok (ApiResult.response d)
  | none => Except.error PyError.attributeError

/-- C1: on a cache hit the endpoint returns the cached payload as
claimed, but on any cache miss the handler raises `AttributeError` (the
`select_form` typo) instead of querying the update table, caching the
message and returning it — evaluated at version `1.0.0` with an
applicable update row (threshold `0.0.1` ≤ `1.0.0`) present. -/
theorem version_get_cache_miss_cex :
    VersionAPI.get (fun _ => some ⟨some "update available"⟩)
        [⟨"0.0.1", "please update"⟩] "1.0.0" =
      Except.ok (ApiResult.response ⟨some "update available"⟩) ∧
    VersionAPI.get (fun _ => none) [⟨"0.0.1", "please update"⟩] "1.0.0" =
      Except.error PyError.attributeError :=
  ⟨rfl, rfl⟩

/-- C4 witness: `get` succeeds on a *disabled* community `alpha` that
has a master key row, instantiating the joined-row criterion. -/
theorem get_spec_witness :
    ∃ m, Community.get ⟨[⟨"alpha", "S1", true, true, 0⟩],
        [⟨"K", "S1", "alpha", true, 0⟩], [], [], []⟩ ⟨"alpha"⟩ = Except.ok m :=
  (Community.get_spec ⟨[⟨"alpha", "S1", true, true, 0⟩],
      [⟨"K", "S1", "alpha", true, 0⟩], [], [], []⟩ ⟨"alpha"⟩).1.mpr
    ⟨⟨"alpha", "S1", true, true, 0⟩, by decide,
     ⟨"K", "S1", "alpha", true, 0⟩, by decide, rfl, rfl, rfl⟩

/-- C5 witness: with unique keys and names, key `K` of the single
enabled community `alpha` resolves to its handle with the master flag. -/
theorem api_key_to_community_spec_witness :
    (ApiKeysUnique ⟨[⟨"alpha", "S1", false, true, 0⟩],
        [⟨"K", "S1", "alpha", true, 0⟩], [], [], []⟩ ∧
     CommunityNamesUnique ⟨[⟨"alpha", "S1", false, true, 0⟩],
        [⟨"K", "S1", "alpha", true, 0⟩], [], [], []⟩) ∧
    api_key_to_community ⟨[⟨"alpha", "S1", false, true, 0⟩],
        [⟨"K", "S1", "alpha", true, 0⟩], [], [], []⟩ "K" =
      Except.ok (⟨"alpha"⟩, true) :=
  ⟨⟨by decide, by decide⟩,
    (api_key_to_community_spec ⟨[⟨"alpha", "S1", false, true, 0⟩],
        [⟨"K", "S1", "alpha", true, 0⟩], [], [], []⟩ "K"
        (by decide) (by decide)).2.2.1
      ⟨"alpha", "S1", false, true, 0⟩ ⟨"K", "S1", "alpha", true, 0⟩ (by decide)⟩

/-- C8 witness: the pagination example instantiated — 12 matches, page
1, limit 5, descending — returns the 5 newest timestamps in order. -/
theorem matches_no_search_spec_witness :
    (Community.matches exDb8 ⟨"alpha"⟩ none 1 5 true).map (fun r => r.timestamp) =
      [12, 11, 10, 9, 8] :=
  (matches_no_search_spec exDb8 ⟨"alpha"⟩ 1 5 true).2.2.2.2

end SQLMatches
